import Mathlib

/-!
Shallow embedding of src/pintos/src/userprog/syscall.c: the syscall
dispatch/validation boundary of the PintOS user-program subsystem.

Addresses are natural numbers; 32-bit machine words are naturals reduced
mod 2^32 where conversions matter.  Kernel state visible to this file is
collected in the structure St: the supplemental page table (SPT), the
per-process file-descriptor list, the filesystem lock flag, a trace of
filesystem operations, the console input stream, and user memory (a byte
map).  External collaborators (the raw filesystem, process control, the
VM subsystem internals that live outside syscall.c) are modelled as an
oracle record ExtWorld carried in the state; functions of syscall.c are
translated clause by clause from the C source.  Pieces of the repository
that syscall.c calls but that are not present under src/ (vm/page.c,
userprog/exception.c, lib/syscall-nr.h, thread/process exit cleanup) are
modelled from the spec and marked as such in their doc comments.
-/

/-- PHYS_BASE from threads/vaddr.h: the user/kernel split at 3 GiB. -/
def PHYS_BASE : Nat := 3221225472

/-- Page size in bytes. -/
def PGSIZE : Nat := 4096

/-- Modelled from the spec: the bounded distance below the stack pointer
within which a missing page counts as stack growth (userprog/exception.c
is not under src/; 32 bytes is the x86 PUSHA slack). -/
def STACK_SLACK : Nat := 32

/-- Modelled from the spec: the fixed maximum stack size (8 MiB) bounding
legal stack growth (userprog/exception.c is not under src/). -/
def MAX_STACK_SIZE : Nat := 8388608

/-- The 32-bit pattern of -1, as stored into an unsigned register. -/
def UINT32_NEG1 : Nat := 4294967295

/-- Conversion of a 32-bit word (e.g. a syscall argument slot) to a signed
int, two's complement. -/
def toInt32 (w : Nat) : Int :=
  if w % 4294967296 < 2147483648 then ((w % 4294967296: Nat) : Int)
  else ((w % 4294967296 : Nat) : Int) - 4294967296

/-- Conversion of a signed int result to the 32-bit word stored in eax. -/
def toUint32 (i : Int) : Nat := (i % (4294967296 : Int)).toNat

/-- is_user_vaddr from threads/vaddr.h: below the user/kernel split. -/
def is_user_vaddr (a : Nat) : Bool := decide (a < PHYS_BASE)

/-- Modelled from the spec: is_valid_user_addr (declared in headers not
under src/) — non-null and in the user portion of the address space
(spec section 4.1). -/
def is_valid_user_addr (a : Nat) : Bool := (decide (a ≠ 0)) && decide (a < PHYS_BASE)

/-- Modelled from the spec: is_stack_growth from userprog/exception.c
(not under src/) — an address with no SPT entry is legal stack growth iff
it lies within a bounded distance below the current stack pointer and
within the fixed maximum stack size (spec section 4.2). -/
def is_stack_growth (a esp : Nat) : Bool :=
  (decide (esp ≤ a + STACK_SLACK)) && (decide (PHYS_BASE - MAX_STACK_SIZE ≤ a))
    && decide (a < PHYS_BASE)

/-- Provenance tag of an SPT entry (spec section 3). -/
inductive Prov where
  | pzero : Prov
  | pmmap (file ofs readBytes zeroBytes : Nat) : Prov
  | pother : Prov
deriving DecidableEq, Repr

/-- Supplemental page table entry, keyed in St.spt by page number. -/
structure SptEntry where
  writeable : Bool
  pinned : Bool
  resident : Bool
  prov : Prov
deriving DecidableEq, Repr

/-- File descriptor entry from userprog (struct file_descriptor): the
small integer and the open file handle. -/
structure FileDesc where
  fd : Int
  file : Nat
deriving DecidableEq, Repr

/-- Trace events for calls into the external filesystem and console. -/
inductive FsOp where
  | createF (path sz : Nat)
  | removeF (path : Nat)
  | openF (path : Nat)
  | closeF (file : Nat)
  | writeF (file buf sz : Nat)
  | readF (file buf sz : Nat)
  | seekF (file pos : Nat)
  | putbufF (buf sz : Nat)
deriving DecidableEq, Repr

/-- Oracle for results of external collaborators (filesystem, process
control, VM-internal allocation success): these live outside syscall.c
and are treated as unconstrained inputs. -/
structure ExtWorld where
  createOk : Nat → Bool
  removeOk : Nat → Bool
  openResult : Nat → Option Nat
  fileLen : Nat → Int
  writeResult : Nat → Nat → Int
  readResult : Nat → Nat → Int
  readInto : Nat → Nat → Nat → List (Nat × Nat) → List (Nat × Nat)
  tellResult : Nat → Nat
  reopenOf : Nat → Nat
  linkOk : Nat → Bool
  growOk : Nat → Bool
  execResult : Nat → Int
  waitResult : Int → Int

/-- Kernel state visible to the syscall layer for one process. -/
structure St where
  spt : List (Nat × SptEntry)
  fds : List FileDesc
  fdIndex : Nat
  mapid : Nat
  mmaps : List Int
  lockHeld : Bool
  fsTrace : List FsOp
  input : List Nat
  mem : List (Nat × Nat)
  exitStatus : Option Int
  ext : ExtWorld

/-- Outcome of running a piece of syscall code: normal return with a
value, process termination (sys_exit), a kernel fault (bad kernel
dereference or failed ASSERT), fuel exhaustion of an unbounded C loop,
or machine power-off (halt). -/
inductive Res (α : Type) where
  | ok : α → St → Res α
  | exited : Int → St → Res α
  | fault : St → Res α
  | timeout : St → Res α
  | halted : St → Res α

/-- Final state carried by an outcome. -/
def Res.state {α : Type} (r : Res α) : St :=
  match r with
  | .ok _ t => t
  | .exited _ t => t
  | .fault t => t
  | .timeout t => t
  | .halted t => t

/-- Whether an outcome is a normal return. -/
def Res.isOk {α : Type} (r : Res α) : Bool :=
  match r with
  | .ok _ _ => true
  | _ => false

/-- Returned value of a normal outcome. -/
def Res.val? {α : Type} (r : Res α) : Option α :=
  match r with
  | .ok v _ => some v
  | _ => none

/-- Sequencing of syscall code: sys_exit, faults, halt and fuel
exhaustion never return to the caller. -/
def bindRes {α β : Type} (r : Res α) (k : α → St → Res β) : Res β :=
  match r with
  | .ok a s => k a s
  | .exited st s => .exited st s
  | .fault s => .fault s
  | .timeout s => .timeout s
  | .halted s => .halted s

/-- Byte of user memory at an address (memory is an association list). -/
def memByte (s : St) (a : Nat) : Nat := (List.lookup a s.mem).getD 0

/-- Little-endian 32-bit word of user memory at an address, as read for
the syscall number and the argument slots. -/
def memWord (s : St) (a : Nat) : Nat :=
  memByte s a + 256 * memByte s (a + 1) + 65536 * memByte s (a + 2)
    + 16777216 * memByte s (a + 3)

/-- Update the SPT entry at a page, if present (first match). -/
def sptUpdate (pg : Nat) (f : SptEntry → SptEntry) :
    List (Nat × SptEntry) → List (Nat × SptEntry)
  | [] => []
  | (p, e) :: rest =>
      if p = pg then (p, f e) :: rest else (p, e) :: sptUpdate pg f rest

/-- get_spte from vm/page.c, modelled from the spec: look up the SPT
entry covering the page containing the address (spec section 4.2). -/
def get_spte (a : Nat) (s : St) : Option SptEntry :=
  List.lookup (a / PGSIZE) s.spt

/-- spt_load from vm/page.c, modelled from the spec: called from the
pinning layer, it ensures the page is resident and sets the pinned flag
(spec sections 4.2 and 4.5). -/
def spt_load (a : Nat) (s : St) : St :=
  {s with spt := sptUpdate (a / PGSIZE) (fun e => {e with pinned := true, resident := true}) s.spt}

/-- spt_stack_growth from vm/page.c, modelled from the spec: synthesize a
fresh zero-filled writable entry at the page and load it immediately
(spec section 4.2); invoked from the pinning layer, whose contract sets
the pinned flag (spec section 4.5).  Fails when the VM cannot allocate,
which the oracle decides. -/
def spt_stack_growth (a : Nat) (s : St) : Option St :=
  if s.ext.growOk a then
    some {s with spt := (a / PGSIZE, ⟨true, true, true, Prov.pzero⟩) :: s.spt}
  else none

/-- spt_link_mmap from vm/page.c, modelled from the spec: create one
FILE_MAPPED SPT entry for the page at the given user address, recording
the backing file, offset, and byte split (spec section 4.6).  Fails when
the VM cannot allocate, which the oracle decides. -/
def spt_link_mmap (file ofs addr readBytes zeroBytes : Nat) (wr : Bool) (s : St) : Option St :=
  if s.ext.linkOk addr then
    some {s with spt := (addr / PGSIZE, ⟨wr, false, false, Prov.pmmap file ofs readBytes zeroBytes⟩) :: s.spt}
  else none

/-- Close every descriptor in the list, tracing each file_close, exactly
as the loop in sys_exit pops and closes them. -/
def closeAllFds : List FileDesc → St → St
  | [], s => s
  | d :: rest, s => closeAllFds rest {s with fsTrace := FsOp.closeF d.file :: s.fsTrace}

/-- Modelled from the spec: the per-process cleanup run by thread_exit /
process_exit (threads/thread.c and userprog/process.c are not under
src/): every memory mapping is implicitly unmapped and the SPT destroyed
when the owning process exits (spec sections 3 and 4.6). -/
def thread_exit_cleanup (s : St) : St :=
  {s with mmaps := [], spt := []}

/-- sys_exit as a state transformer: close all open descriptors, record
the exit status, then run the process-exit cleanup (syscall.c lines
332-349 followed by thread_exit). -/
def sys_exit_state (status : Int) (s : St) : St :=
  thread_exit_cleanup {closeAllFds s.fds {s with fds := []} with exitStatus := some status}

/-- Termination outcome produced by a call to sys_exit inside a handler:
sys_exit never returns to its caller. -/
def exitRes {α : Type} (status : Int) (s : St) : Res α :=
  Res.exited status (sys_exit_state status s)

/-- check_and_pin_addr from syscall.c lines 46-67: load and pin the page
if an SPT entry exists; otherwise accept only legal stack growth,
terminating the process on any failure.  Returns the original lookup
result, exactly as the C function returns the spte fetched at entry. -/
def check_and_pin_addr (addr esp : Nat) (s : St) : Res (Option SptEntry) :=
  match get_spte addr s with
  | some e => Res.ok (some e) (spt_load addr s)
  | none =>
      if is_stack_growth addr esp then
        match spt_stack_growth addr s with
        | some t => Res.ok none t
        | none => exitRes (-1) s
      else exitRes (-1) s

/-- Loop body of check_and_pin_buffer (syscall.c lines 69-78): iterate
byte by byte, terminating the process on a non-user or null address, on
any pin failure, and on a write into a page marked non-writable. -/
def cpbGo (addr n esp : Nat) (write : Bool) (s : St) : Res Unit :=
  match n with
  | 0 => Res.ok () s
  | m + 1 =>
      if is_valid_user_addr addr then
        bindRes (check_and_pin_addr addr esp s) (fun spte t =>
          match spte with
          | some e => if write && !e.writeable then exitRes (-1) t else cpbGo (addr + 1) m esp write t
          | none => cpbGo (addr + 1) m esp write t)
      else exitRes (-1) s

/-- check_and_pin_buffer from syscall.c lines 69-78. -/
def check_and_pin_buffer (uaddr len esp : Nat) (write : Bool) (s : St) : Res Unit :=
  cpbGo uaddr len esp write s

/-- Loop of check_and_pin_string (syscall.c lines 80-89): after pinning
the current byte, advance while the byte is nonzero, pinning each next
byte.  The C loop is unbounded, so it takes fuel. -/
def cpsGo (ptr esp fuel : Nat) (s : St) : Res Unit :=
  if memByte s ptr = 0 then Res.ok () s
  else
    match fuel with
    | 0 => Res.timeout s
    | fu + 1 =>
        bindRes (check_and_pin_addr (ptr + 1) esp s) (fun _ t => cpsGo (ptr + 1) esp fu t)

/-- check_and_pin_string from syscall.c lines 80-89. -/
def check_and_pin_string (str esp fuel : Nat) (s : St) : Res Unit :=
  bindRes (check_and_pin_addr str esp s) (fun _ t => cpsGo str esp fuel t)

/-- unpin_addr from syscall.c lines 91-97: clear the pinned flag of the
page, if it has an SPT entry. -/
def unpin_addr (a : Nat) (s : St) : St :=
  match get_spte a s with
  | none => s
  | some _ => {s with spt := sptUpdate (a / PGSIZE) (fun e => {e with pinned := false}) s.spt}

/-- Loop of unpin_buffer (syscall.c lines 99-104). -/
def unpinBufGo (a n : Nat) (s : St) : St :=
  match n with
  | 0 => s
  | m + 1 => unpinBufGo (a + 1) m (unpin_addr a s)

/-- unpin_buffer from syscall.c lines 99-104. -/
def unpin_buffer (uaddr len : Nat) (s : St) : St :=
  unpinBufGo uaddr len s

/-- Loop of unpin_string (syscall.c lines 106-115): while the current
byte is nonzero, advance and unpin the next byte. -/
def unpinStrGo (a fuel : Nat) (s : St) : Res Unit :=
  if memByte s a = 0 then Res.ok () s
  else
    match fuel with
    | 0 => Res.timeout s
    | fu + 1 => unpinStrGo (a + 1) fu (unpin_addr (a + 1) s)

/-- unpin_string from syscall.c lines 106-115. -/
def unpin_string (str fuel : Nat) (s : St) : Res Unit :=
  unpinStrGo str fuel (unpin_addr str s)

/-- Loop of valid_uaddr (syscall.c lines 117-126): each byte of the range
must be non-null, a user address, and covered by an SPT entry; otherwise
the process is terminated. -/
def vuGo (addr n : Nat) (s : St) : Res Unit :=
  match n with
  | 0 => Res.ok () s
  | m + 1 =>
      if addr = 0 || !is_user_vaddr addr || (get_spte addr s).isNone then exitRes (-1) s
      else vuGo (addr + 1) m s

/-- valid_uaddr from syscall.c lines 117-126. -/
def valid_uaddr (uaddr len : Nat) (s : St) : Res Unit :=
  vuGo uaddr len s

/-- Loop of valid_string (syscall.c lines 240-246): validate each byte
address, stopping after the terminator, which is validated once more. -/
def vsGo (ptr fuel : Nat) (s : St) : Res Unit :=
  bindRes (valid_uaddr ptr 1 s) (fun _ t =>
    if memByte t ptr ≠ 0 then
      match fuel with
      | 0 => Res.timeout t
      | fu + 1 => vsGo (ptr + 1) fu t
    else valid_uaddr ptr 1 t)

/-- valid_string from syscall.c lines 240-246. -/
def valid_string (str fuel : Nat) (s : St) : Res Unit :=
  vsGo str fuel s

/-- get_fdstruct from syscall.c lines 248-262: first descriptor in the
process list with the given fd, if any. -/
def get_fdstruct (fd : Int) (l : List FileDesc) : Option FileDesc :=
  l.find? (fun d => d.fd == fd)

/-- sys_create from syscall.c lines 265-277: validate the path string,
then create through the filesystem under the filesystem lock. -/
def sys_create (file initial_size fuel : Nat) (s : St) : Res Bool :=
  bindRes (valid_string file fuel s) (fun _ s1 =>
    let s2 := {s1 with lockHeld := true, fsTrace := FsOp.createF file initial_size :: s1.fsTrace}
    Res.ok (s2.ext.createOk file) {s2 with lockHeld := false})

/-- sys_remove from syscall.c lines 279-289: validate the path string,
then remove through the filesystem under the filesystem lock. -/
def sys_remove (file fuel : Nat) (s : St) : Res Bool :=
  bindRes (valid_string file fuel s) (fun _ s1 =>
    let s2 := {s1 with lockHeld := true, fsTrace := FsOp.removeF file :: s1.fsTrace}
    Res.ok (s2.ext.removeOk file) {s2 with lockHeld := false})

/-- sys_open from syscall.c lines 291-312: validate the path, open
through the filesystem under the lock; on success allocate the next fd
from the process counter and append the descriptor to the list. -/
def sys_open (file fuel : Nat) (s : St) : Res Int :=
  bindRes (valid_string file fuel s) (fun _ s1 =>
    let s2 := {s1 with lockHeld := true, fsTrace := FsOp.openF file :: s1.fsTrace}
    match s2.ext.openResult file with
    | none => Res.ok (-1) {s2 with lockHeld := false}
    | some fo =>
        let newFd : Int := (s2.fdIndex : Int)
        let s3 := {s2 with fdIndex := s2.fdIndex + 1,
                           fds := s2.fds ++ [FileDesc.mk newFd fo]}
        Res.ok newFd {s3 with lockHeld := false})

/-- sys_close from syscall.c lines 314-330: fds 0 and 1 (and negatives)
terminate the process, as does an fd not in the descriptor list;
otherwise close the file and remove the entry under the lock. -/
def sys_close (fd : Int) (s : St) : Res Unit :=
  if fd < 2 then exitRes (-1) s
  else
    match get_fdstruct fd s.fds with
    | none => exitRes (-1) s
    | some d =>
        let s1 := {s with lockHeld := true, fsTrace := FsOp.closeF d.file :: s.fsTrace}
        let s2 := {s1 with fds := s1.fds.eraseP (fun x => x.fd == fd)}
        Res.ok () {s2 with lockHeld := false}

/-- sys_write from syscall.c lines 351-380: under the filesystem lock,
fd 0 terminates the process (after releasing the lock), fd 1 writes the
buffer to the console, any other fd writes through the descriptor or
fails with -1 when the fd is not open. -/
def sys_write (fd : Int) (buffer size : Nat) (s : St) : Res Int :=
  let s1 := {s with lockHeld := true}
  if fd = 0 then exitRes (-1) {s1 with lockHeld := false}
  else if fd = 1 then
    let s2 := {s1 with fsTrace := FsOp.putbufF buffer size :: s1.fsTrace}
    Res.ok (toInt32 size) {s2 with lockHeld := false}
  else
    match get_fdstruct fd s1.fds with
    | none => Res.ok (-1) {s1 with lockHeld := false}
    | some d =>
        let r := s1.ext.writeResult d.file size
        Res.ok r {s1 with fsTrace := FsOp.writeF d.file buffer size :: s1.fsTrace,
                          lockHeld := false}

/-- sys_read from syscall.c lines 382-409: under the filesystem lock,
fd 0 consumes one console character and returns 0 (the source neither
stores the character nor releases the lock on this path), fd 1
terminates the process, any other fd reads through the descriptor or
fails with -1 when the fd is not open. -/
def sys_read (fd : Int) (buffer size : Nat) (s : St) : Res Int :=
  let s1 := {s with lockHeld := true}
  if fd = 0 then
    Res.ok 0 {s1 with input := s1.input.tail}
  else if fd = 1 then exitRes (-1) {s1 with lockHeld := false}
  else
    match get_fdstruct fd s1.fds with
    | none => Res.ok (-1) {s1 with lockHeld := false}
    | some d =>
        let r := s1.ext.readResult d.file size
        Res.ok r {s1 with fsTrace := FsOp.readF d.file buffer size :: s1.fsTrace,
                          mem := s1.ext.readInto d.file buffer size s1.mem,
                          lockHeld := false}

/-- sys_filesize from syscall.c lines 411-421: -1 for an fd that is not
open (before touching the lock), otherwise the file length under the
lock. -/
def sys_filesize (fd : Int) (s : St) : Res Int :=
  match get_fdstruct fd s.fds with
  | none => Res.ok (-1) s
  | some d =>
      let s1 := {s with lockHeld := true}
      Res.ok (s1.ext.fileLen d.file) {s1 with lockHeld := false}

/-- sys_exec from syscall.c lines 423-428: validate the command line and
delegate to process_execute (external). -/
def sys_exec (cmd fuel : Nat) (s : St) : Res Int :=
  bindRes (valid_string cmd fuel s) (fun _ s1 => Res.ok (s1.ext.execResult cmd) s1)

/-- sys_wait from syscall.c lines 430-434: delegate to process_wait. -/
def sys_wait (pid : Int) (s : St) : Res Int :=
  Res.ok (s.ext.waitResult pid) s

/-- sys_seek from syscall.c lines 436-445: silently do nothing for an fd
that is not open, otherwise seek under the lock. -/
def sys_seek (fd : Int) (position : Nat) (s : St) : Res Unit :=
  match get_fdstruct fd s.fds with
  | none => Res.ok () s
  | some d =>
      let s1 := {s with lockHeld := true, fsTrace := FsOp.seekF d.file position :: s.fsTrace}
      Res.ok () {s1 with lockHeld := false}

/-- sys_tell from syscall.c lines 447-457: the unsigned pattern of -1 for
an fd that is not open, otherwise the file position under the lock. -/
def sys_tell (fd : Int) (s : St) : Res Nat :=
  match get_fdstruct fd s.fds with
  | none => Res.ok UINT32_NEG1 s
  | some d =>
      let s1 := {s with lockHeld := true}
      Res.ok (s1.ext.tellResult d.file) {s1 with lockHeld := false}

/-- sys_halt from syscall.c lines 459-463: power the machine off. -/
def sys_halt (s : St) : Res Unit :=
  Res.halted s

/-- Per-page loop of sys_mmap (syscall.c lines 478-490): link one
FILE_MAPPED SPT entry per page; on a link failure return false
immediately with the entries created so far still installed.  The dead
zero_bytes counter is carried mod 2^32 exactly as the unsigned C
variable underflows.  The loop consumes read_bytes page by page; fuel
bounds the recursion, with exhaustion reported as a timeout. -/
def mmapLoop (fuel file ofs addr rb zb : Nat) (s : St) : Res Bool :=
  if rb = 0 then Res.ok true s
  else
    match fuel with
    | 0 => Res.timeout s
    | fu + 1 =>
        let prb := min rb PGSIZE
        let pzb := PGSIZE - prb
        match spt_link_mmap file ofs addr prb pzb true s with
        | none => Res.ok false s
        | some s1 =>
            mmapLoop fu file (ofs + prb) (addr + PGSIZE) (rb - prb)
              ((zb + 4294967296 - pzb) % 4294967296) s1

/-- sys_mmap from syscall.c lines 465-493.  The source dereferences
fd_s->file_pointer for file_length before testing fd_s for NULL, so an
fd that is not open faults in the kernel; otherwise a null, non-user,
unaligned address or a zero-length file fails with -1, and the per-page
loop links SPT entries, returning the old mapid and incrementing it on
success. -/
def sys_mmap (fd : Int) (addr fuel : Nat) (s : St) : Res Int :=
  match get_fdstruct fd s.fds with
  | none => Res.fault s
  | some d =>
      let length := s.ext.fileLen d.file
      if !is_valid_user_addr addr || addr % PGSIZE ≠ 0 || length = 0 then Res.ok (-1) s
      else
        let file := s.ext.reopenOf d.file
        bindRes (mmapLoop fuel file 0 addr (toUint32 length) 0 s) (fun linked s1 =>
          if linked then Res.ok ((s1.mapid : Int)) {s1 with mapid := s1.mapid + 1}
          else Res.ok (-1) s1)

/-- remove_mapid from the VM subsystem, modelled from the spec: unmap
removes the mapping registered under the mapid (spec section 4.6);
sys_munmap (syscall.c lines 495-499) delegates to it. -/
def sys_munmap (map : Int) (s : St) : Res Unit :=
  Res.ok () {s with mmaps := s.mmaps.erase map}

/-- Loop of get_syscall_arg (syscall.c lines 220-230): for each slot,
check_and_pin_addr on the slot address — with sizeof(uint32_t) = 4
passed where the stack pointer is expected, exactly as in the source —
then read the 32-bit word. -/
def gsaGo (ptr argc : Nat) (s : St) : Res (List Nat) :=
  match argc with
  | 0 => Res.ok [] s
  | n + 1 =>
      bindRes (check_and_pin_addr ptr 4 s) (fun _ t =>
        bindRes (gsaGo (ptr + 4) n t) (fun rest u =>
          Res.ok (memWord t ptr :: rest) u))

/-- get_syscall_arg from syscall.c lines 220-230: arguments start one
word above the stack pointer. -/
def get_syscall_arg (f_esp argc : Nat) (s : St) : Res (List Nat) :=
  gsaGo (f_esp + 4) argc s

/-- get_syscall_type from syscall.c lines 232-238: validate the four
bytes at the stack pointer and read the syscall number. -/
def get_syscall_type (f_esp : Nat) (s : St) : Res Nat :=
  bindRes (valid_uaddr f_esp 4 s) (fun _ t => Res.ok (memWord t f_esp) t)

/-- Interrupt frame: the user stack pointer and the eax result slot. -/
structure Frame where
  esp : Nat
  eax : Nat
deriving DecidableEq, Repr

/-- Modelled from the spec: syscall numbers from lib/syscall-nr.h (not
under src/), the standard PintOS numbering in declaration order. -/
def SYS_HALT : Nat := 0
def SYS_EXIT : Nat := 1
def SYS_EXEC : Nat := 2
def SYS_WAIT : Nat := 3
def SYS_CREATE : Nat := 4
def SYS_REMOVE : Nat := 5
def SYS_OPEN : Nat := 6
def SYS_FILESIZE : Nat := 7
def SYS_READ : Nat := 8
def SYS_WRITE : Nat := 9
def SYS_SEEK : Nat := 10
def SYS_TELL : Nat := 11
def SYS_CLOSE : Nat := 12
def SYS_MMAP : Nat := 13
def SYS_MUNMAP : Nat := 14

/-- SYS_CREATE branch of the dispatch switch (syscall.c lines 142-148):
two arguments, pin the path string, create, ASSERT the path pointer is a
valid user address (a kernel fault when violated), unpin the string. -/
def caseCreate (fuel : Nat) (f : Frame) (s : St) : Res Frame :=
  bindRes (get_syscall_arg f.esp 2 s) (fun args s1 =>
    let a0 := args.getD 0 0
    let a1 := args.getD 1 0
    bindRes (check_and_pin_string a0 f.esp fuel s1) (fun _ s2 =>
      bindRes (sys_create a0 a1 fuel s2) (fun b s3 =>
        if is_valid_user_addr a0 then
          bindRes (unpin_string a0 fuel s3) (fun _ s4 =>
            Res.ok {f with eax := if b then 1 else 0} s4)
        else Res.fault s3)))

/-- SYS_REMOVE branch of the dispatch switch (syscall.c lines 149-153):
one argument, pin the path string, remove — and, exactly as in the
source, no unpinning of the string afterwards. -/
def caseRemove (fuel : Nat) (f : Frame) (s : St) : Res Frame :=
  bindRes (get_syscall_arg f.esp 1 s) (fun args s1 =>
    let a0 := args.getD 0 0
    bindRes (check_and_pin_string a0 f.esp fuel s1) (fun _ s2 =>
      bindRes (sys_remove a0 fuel s2) (fun b s3 =>
        Res.ok {f with eax := if b then 1 else 0} s3)))

/-- SYS_OPEN branch of the dispatch switch (syscall.c lines 154-160). -/
def caseOpen (fuel : Nat) (f : Frame) (s : St) : Res Frame :=
  bindRes (get_syscall_arg f.esp 1 s) (fun args s1 =>
    let a0 := args.getD 0 0
    bindRes (check_and_pin_string a0 f.esp fuel s1) (fun _ s2 =>
      bindRes (sys_open a0 fuel s2) (fun r s3 =>
        if is_valid_user_addr a0 then
          bindRes (unpin_string a0 fuel s3) (fun _ s4 =>
            Res.ok {f with eax := toUint32 r} s4)
        else Res.fault s3)))

/-- SYS_CLOSE branch of the dispatch switch (syscall.c lines 161-164). -/
def caseClose (f : Frame) (s : St) : Res Frame :=
  bindRes (get_syscall_arg f.esp 1 s) (fun args s1 =>
    bindRes (sys_close (toInt32 (args.getD 0 0)) s1) (fun _ s2 => Res.ok f s2))

/-- SYS_EXIT branch of the dispatch switch (syscall.c lines 165-168). -/
def caseExit (f : Frame) (s : St) : Res Frame :=
  bindRes (get_syscall_arg f.esp 1 s) (fun args s1 =>
    exitRes (toInt32 (args.getD 0 0)) s1)

/-- SYS_WRITE branch of the dispatch switch (syscall.c lines 169-174):
three arguments, pin the buffer (read access), write, unpin the
buffer. -/
def caseWrite (f : Frame) (s : St) : Res Frame :=
  bindRes (get_syscall_arg f.esp 3 s) (fun args s1 =>
    let a0 := args.getD 0 0
    let a1 := args.getD 1 0
    let a2 := args.getD 2 0
    bindRes (check_and_pin_buffer a1 a2 f.esp false s1) (fun _ s2 =>
      bindRes (sys_write (toInt32 a0) a1 a2 s2) (fun r s3 =>
        Res.ok {f with eax := toUint32 r} (unpin_buffer a1 a2 s3))))

/-- SYS_READ branch of the dispatch switch (syscall.c lines 175-180):
three arguments, pin the buffer (write access), read, unpin the
buffer. -/
def caseRead (f : Frame) (s : St) : Res Frame :=
  bindRes (get_syscall_arg f.esp 3 s) (fun args s1 =>
    let a0 := args.getD 0 0
    let a1 := args.getD 1 0
    let a2 := args.getD 2 0
    bindRes (check_and_pin_buffer a1 a2 f.esp true s1) (fun _ s2 =>
      bindRes (sys_read (toInt32 a0) a1 a2 s2) (fun r s3 =>
        Res.ok {f with eax := toUint32 r} (unpin_buffer a1 a2 s3))))

/-- SYS_FILESIZE branch of the dispatch switch (syscall.c lines
181-184). -/
def caseFilesize (f : Frame) (s : St) : Res Frame :=
  bindRes (get_syscall_arg f.esp 1 s) (fun args s1 =>
    bindRes (sys_filesize (toInt32 (args.getD 0 0)) s1) (fun r s2 =>
      Res.ok {f with eax := toUint32 r} s2))

/-- SYS_EXEC branch of the dispatch switch (syscall.c lines 185-191). -/
def caseExec (fuel : Nat) (f : Frame) (s : St) : Res Frame :=
  bindRes (get_syscall_arg f.esp 1 s) (fun args s1 =>
    let a0 := args.getD 0 0
    bindRes (check_and_pin_string a0 f.esp fuel s1) (fun _ s2 =>
      bindRes (sys_exec a0 fuel s2) (fun r s3 =>
        if is_valid_user_addr a0 then
          bindRes (unpin_string a0 fuel s3) (fun _ s4 =>
            Res.ok {f with eax := toUint32 r} s4)
        else Res.fault s3)))

/-- SYS_WAIT branch of the dispatch switch (syscall.c lines 192-195). -/
def caseWait (f : Frame) (s : St) : Res Frame :=
  bindRes (get_syscall_arg f.esp 1 s) (fun args s1 =>
    bindRes (sys_wait (toInt32 (args.getD 0 0)) s1) (fun r s2 =>
      Res.ok {f with eax := toUint32 r} s2))

/-- SYS_SEEK branch of the dispatch switch (syscall.c lines 196-199). -/
def caseSeek (f : Frame) (s : St) : Res Frame :=
  bindRes (get_syscall_arg f.esp 2 s) (fun args s1 =>
    bindRes (sys_seek (toInt32 (args.getD 0 0)) (args.getD 1 0) s1) (fun _ s2 =>
      Res.ok f s2))

/-- SYS_TELL branch of the dispatch switch (syscall.c lines 200-203). -/
def caseTell (f : Frame) (s : St) : Res Frame :=
  bindRes (get_syscall_arg f.esp 1 s) (fun args s1 =>
    bindRes (sys_tell (toInt32 (args.getD 0 0)) s1) (fun r s2 =>
      Res.ok {f with eax := r % 4294967296} s2))

/-- SYS_MMAP branch of the dispatch switch (syscall.c lines 204-207). -/
def caseMmap (fuel : Nat) (f : Frame) (s : St) : Res Frame :=
  bindRes (get_syscall_arg f.esp 2 s) (fun args s1 =>
    bindRes (sys_mmap (toInt32 (args.getD 0 0)) (args.getD 1 0) fuel s1) (fun r s2 =>
      Res.ok {f with eax := toUint32 r} s2))

/-- SYS_MUNMAP branch of the dispatch switch (syscall.c lines
208-211). -/
def caseMunmap (f : Frame) (s : St) : Res Frame :=
  bindRes (get_syscall_arg f.esp 1 s) (fun args s1 =>
    bindRes (sys_munmap (toInt32 (args.getD 0 0)) s1) (fun _ s2 => Res.ok f s2))

/-- SYS_HALT branch of the dispatch switch (syscall.c lines 212-214). -/
def caseHalt (f : Frame) (s : St) : Res Frame :=
  bindRes (sys_halt s) (fun _ s1 => Res.ok f s1)

/-- The switch of syscall_handler (syscall.c lines 140-215), one branch
per syscall number; an unknown number falls through the switch with no
effect. -/
def runCase (fuel ty : Nat) (f : Frame) (s : St) : Res Frame :=
  if ty = SYS_CREATE then caseCreate fuel f s
  else if ty = SYS_REMOVE then caseRemove fuel f s
  else if ty = SYS_OPEN then caseOpen fuel f s
  else if ty = SYS_CLOSE then caseClose f s
  else if ty = SYS_EXIT then caseExit f s
  else if ty = SYS_WRITE then caseWrite f s
  else if ty = SYS_READ then caseRead f s
  else if ty = SYS_FILESIZE then caseFilesize f s
  else if ty = SYS_EXEC then caseExec fuel f s
  else if ty = SYS_WAIT then caseWait f s
  else if ty = SYS_SEEK then caseSeek f s
  else if ty = SYS_TELL then caseTell f s
  else if ty = SYS_MMAP then caseMmap fuel f s
  else if ty = SYS_MUNMAP then caseMunmap f s
  else if ty = SYS_HALT then caseHalt f s
  else Res.ok f s

/-- syscall_handler from syscall.c lines 134-217: read the syscall
number, pin the stack-pointer page, dispatch on the number, and unpin
the stack-pointer page on the normal return path. -/
def syscall_handler (fuel : Nat) (f : Frame) (s : St) : Res Frame :=
  bindRes (get_syscall_type f.esp s) (fun ty s1 =>
    bindRes (check_and_pin_addr f.esp f.esp s1) (fun _ s2 =>
      bindRes (runCase fuel ty f s2) (fun f1 s3 =>
        Res.ok f1 (unpin_addr f.esp s3))))

/-- The page covering an address has an SPT entry with the pinned flag
set. -/
def pinnedAt (s : St) (a : Nat) : Prop :=
  ∃ e, get_spte a s = some e ∧ e.pinned = true

/-- Pinned flag of the entry at a page, as a Boolean observation. -/
def sptPinnedB (s : St) (pg : Nat) : Bool :=
  match List.lookup pg s.spt with
  | some e => e.pinned
  | none => false

/-- Whether the entry at a page carries memory-mapped-file provenance. -/
def sptHasMmap (s : St) (pg : Nat) : Bool :=
  match List.lookup pg s.spt with
  | some e =>
      match e.prov with
      | Prov.pmmap _ _ _ _ => true
      | _ => false
  | none => false

/-- Two states that agree on every component except the SPT: the pinning
and validation helpers of syscall.c touch only the SPT, so this is the
frame condition threaded through the dispatcher proofs. -/
structure EqExceptSpt (s t : St) : Prop where
  fds_eq : t.fds = s.fds
  fdIndex_eq : t.fdIndex = s.fdIndex
  mapid_eq : t.mapid = s.mapid
  mmaps_eq : t.mmaps = s.mmaps
  lock_eq : t.lockHeld = s.lockHeld
  trace_eq : t.fsTrace = s.fsTrace
  input_eq : t.input = s.input
  mem_eq : t.mem = s.mem
  exit_eq : t.exitStatus = s.exitStatus
  ext_eq : t.ext = s.ext

/-- Oracle fixture: an external world in which filesystem operations
succeed with simple deterministic results. -/
def extD : ExtWorld where
  createOk := fun _ => true
  removeOk := fun _ => true
  openResult := fun _ => some 7
  fileLen := fun _ => 10
  writeResult := fun _ sz => (sz : Int)
  readResult := fun _ sz => (sz : Int)
  readInto := fun _ _ _ m => m
  tellResult := fun _ => 0
  reopenOf := fun h2 => h2 + 1
  linkOk := fun _ => true
  growOk := fun _ => true
  execResult := fun _ => 1
  waitResult := fun _ => 0

/-- State fixture: a process with no open descriptors, empty tables and
the deterministic oracle. -/
def baseSt : St where
  spt := []
  fds := []
  fdIndex := 2
  mapid := 0
  mmaps := []
  lockHeld := false
  fsTrace := []
  input := []
  mem := []
  exitStatus := none
  ext := extD

/-- Concrete user stack pointer fixture: 100 bytes below PHYS_BASE, page
786431. -/
def ESPC : Nat := 3221225372

/-- A generic resident, writable, unpinned user page entry. -/
def entU : SptEntry := ⟨true, false, true, Prov.pother⟩

/-- Frame fixture sitting at the concrete stack pointer. -/
def frC : Frame := ⟨ESPC, 0⟩

/-- State fixture for the SYS_REMOVE dispatch: the stack page and the
string page (page 16) are mapped; memory holds syscall number
SYS_REMOVE at esp, the string pointer 65536 one slot up, and the
one-character path string at 65536. -/
def stC2 : St :=
  {baseSt with
    spt := [(786431, entU), (16, entU)],
    mem := [(ESPC, 5), (ESPC + 6, 1), (65536, 97)]}

/-- State fixture for the mmap counterexample of the null-argument
claim: fd 2 is open on a 10-byte file; the SYS_MMAP dispatch reads fd 2
and address 0 from the stack. -/
def stC1x : St :=
  {baseSt with
    spt := [(786431, entU)],
    fds := [⟨2, 7⟩],
    mem := [(ESPC, 13), (ESPC + 4, 2)]}

/-- State fixture for the zero-length write counterexample: the
SYS_WRITE dispatch reads fd 1, buffer pointer 0 and length 0 from the
stack. -/
def stC1y : St :=
  {baseSt with
    spt := [(786431, entU)],
    mem := [(ESPC, 9), (ESPC + 4, 1)]}

/-- State fixture for the invalid-buffer witness: the SYS_WRITE dispatch
reads fd 1, buffer pointer PHYS_BASE (a kernel address) and length 1
from the stack. -/
def stC1w : St :=
  {baseSt with
    spt := [(786431, entU)],
    mem := [(ESPC, 9), (ESPC + 4, 1), (ESPC + 11, 192), (ESPC + 12, 1)]}

/-- State fixture with a single open descriptor, fd 2 on handle 7. -/
def stC6 : St :=
  {baseSt with fds := [⟨2, 7⟩]}

/-- State fixture for the mmap rollback claim: fd 2 is open on an
8192-byte (two-page) file; creating the SPT entry succeeds for the page
at address 4096 and fails for the page at address 8192. -/
def stC7 : St :=
  {baseSt with
    fds := [⟨2, 7⟩],
    ext := {extD with fileLen := fun _ => 8192, linkOk := fun a => a == 4096}}

/-- State fixture whose keyboard stream holds one character. -/
def stC10 : St :=
  {baseSt with input := [65]}

/-- State fixture for the argument-slot witness: the stack page is
mapped and the word 42 sits in the first argument slot. -/
def stC9 : St :=
  {baseSt with spt := [(786431, entU)], mem := [(ESPC + 4, 42)]}

/-- Number of argument slots each syscall case fetches from the stack:
the argc passed to get_syscall_arg in the matching branch of the
switch (0 for SYS_HALT and unknown numbers, which fetch none). -/
def argcOf : Nat → Nat
  | 1 => 1
  | 2 => 1
  | 3 => 1
  | 4 => 2
  | 5 => 1
  | 6 => 1
  | 7 => 1
  | 8 => 3
  | 9 => 3
  | 10 => 2
  | 11 => 1
  | 12 => 1
  | 13 => 2
  | 14 => 1
  | _ => 0

/-- The syscall numbers whose dispatch branch fetches argument slots
(every implemented case except SYS_HALT). -/
def argFetchers : List Nat :=
  [SYS_EXIT, SYS_EXEC, SYS_WAIT, SYS_CREATE, SYS_REMOVE, SYS_OPEN, SYS_FILESIZE,
   SYS_READ, SYS_WRITE, SYS_SEEK, SYS_TELL, SYS_CLOSE, SYS_MMAP, SYS_MUNMAP]

/-- Frame fixture whose stack pointer sits 4 bytes below PHYS_BASE, so
the first argument slot is the first kernel address. -/
def frC1s : Frame := ⟨3221225468, 0⟩

/-- State fixture for the invalid-slot witness: the stack page is
mapped and holds syscall number SYS_TELL at esp; the slot at PHYS_BASE
is a kernel address with no SPT entry. -/
def stC1s : St :=
  {baseSt with spt := [(786431, entU)], mem := [(3221225468, 11)]}

/-- State fixture for the invalid-string-byte witness: a SYS_REMOVE
dispatch whose filename string starts at PHYS_BASE-1 with a nonzero
byte there, so the byte after it is the first kernel address, with no
SPT entry and no terminator seen before it. -/
def stC1t : St :=
  {baseSt with
    spt := [(786431, entU)],
    mem := [(ESPC, 5), (ESPC + 4, 255), (ESPC + 5, 255), (ESPC + 6, 255),
            (ESPC + 7, 191), (3221225471, 97)]}

theorem eqspt_refl (s : St) : EqExceptSpt s s :=
  ⟨rfl, rfl, rfl, rfl, rfl, rfl, rfl, rfl, rfl, rfl⟩

theorem eqspt_trans {s t u : St} (h1 : EqExceptSpt s t) (h2 : EqExceptSpt t u) :
    EqExceptSpt s u :=
  ⟨h2.fds_eq.trans h1.fds_eq, h2.fdIndex_eq.trans h1.fdIndex_eq,
   h2.mapid_eq.trans h1.mapid_eq, h2.mmaps_eq.trans h1.mmaps_eq,
   h2.lock_eq.trans h1.lock_eq, h2.trace_eq.trans h1.trace_eq,
   h2.input_eq.trans h1.input_eq, h2.mem_eq.trans h1.mem_eq,
   h2.exit_eq.trans h1.exit_eq, h2.ext_eq.trans h1.ext_eq⟩

theorem eqspt_sptOnly (s : St) (l : List (Nat × SptEntry)) :
    EqExceptSpt s {s with spt := l} :=
  ⟨rfl, rfl, rfl, rfl, rfl, rfl, rfl, rfl, rfl, rfl⟩

theorem memByte_congr {s t : St} (h : EqExceptSpt s t) (a : Nat) :
    memByte t a = memByte s a := by
  unfold memByte
  rw [h.mem_eq]

theorem memWord_congr {s t : St} (h : EqExceptSpt s t) (a : Nat) :
    memWord t a = memWord s a := by
  unfold memWord
  rw [memByte_congr h, memByte_congr h, memByte_congr h, memByte_congr h]

theorem lookup_sptUpdate (pg k : Nat) (f : SptEntry → SptEntry)
    (l : List (Nat × SptEntry)) :
    List.lookup k (sptUpdate pg f l)
      = if k = pg then (List.lookup k l).map f else List.lookup k l := by
  induction l with
  | nil => simp [sptUpdate]
  | cons hd tl ih =>
      obtain ⟨p, e⟩ := hd
      by_cases hp : p = pg
      · subst hp
        by_cases hk : k = p
        · subst hk
          simp [sptUpdate, List.lookup]
        · have hb : (k == p) = false := by
            simp [hk]
          simp [sptUpdate, List.lookup, hk, hb]
      · by_cases hk : k = p
        · subst hk
          simp [sptUpdate, hp, List.lookup, Ne.symm hp]
        · have hb : (k == p) = false := by
            simp [hk]
          simp only [sptUpdate, if_neg hp, List.lookup, hb, ih]

theorem cap_cases (addr esp : Nat) (s : St) :
    (∃ v t, check_and_pin_addr addr esp s = Res.ok v t ∧ EqExceptSpt s t)
    ∨ (∃ u, check_and_pin_addr addr esp s = Res.exited (-1) (sys_exit_state (-1) u)
        ∧ EqExceptSpt s u) := by
  unfold check_and_pin_addr
  cases hg : get_spte addr s with
  | some e => exact Or.inl ⟨some e, spt_load addr s, rfl, eqspt_sptOnly s _⟩
  | none =>
      by_cases hsg : is_stack_growth addr esp
      · simp only [hsg, if_true]
        unfold spt_stack_growth
        by_cases hgo : s.ext.growOk addr
        · simp only [hgo, if_true]
          exact Or.inl ⟨none, _, rfl, eqspt_sptOnly s _⟩
        · simp only [hgo, if_false]
          exact Or.inr ⟨s, rfl, eqspt_refl s⟩
      · simp only [hsg, if_false]
        exact Or.inr ⟨s, rfl, eqspt_refl s⟩

theorem cap_ok_eq {addr esp : Nat} {s t : St} {v : Option SptEntry}
    (h : check_and_pin_addr addr esp s = Res.ok v t) : EqExceptSpt s t := by
  rcases cap_cases addr esp s with ⟨v2, t2, he, hq⟩ | ⟨u, he, _⟩
  · rw [he] at h
    cases h
    exact hq
  · rw [he] at h
    cases h

theorem cap_pins {addr esp : Nat} {s t : St} {v : Option SptEntry}
    (h : check_and_pin_addr addr esp s = Res.ok v t) : pinnedAt t addr := by
  unfold check_and_pin_addr at h
  cases hg : get_spte addr s with
  | some e =>
      rw [hg] at h
      cases h
      refine ⟨{e with pinned := true, resident := true}, ?_, rfl⟩
      unfold get_spte spt_load
      rw [lookup_sptUpdate]
      simp only [if_true, if_pos rfl]
      unfold get_spte at hg
      rw [hg]
      rfl
  | none =>
      rw [hg] at h
      by_cases hsg : is_stack_growth addr esp
      · rw [if_pos hsg] at h
        unfold spt_stack_growth at h
        by_cases hgo : s.ext.growOk addr
        · rw [if_pos hgo] at h
          cases h
          refine ⟨⟨true, true, true, Prov.pzero⟩, ?_, rfl⟩
          unfold get_spte
          simp [List.lookup]
        · rw [if_neg hgo] at h
          cases h
      · rw [if_neg hsg] at h
        cases h

theorem cap_preserves_pinned {a2 esp : Nat} {s t : St} {v : Option SptEntry}
    (h : check_and_pin_addr a2 esp s = Res.ok v t) {a : Nat}
    (hp : pinnedAt s a) : pinnedAt t a := by
  obtain ⟨e, hl, hpin⟩ := hp
  unfold check_and_pin_addr at h
  cases hg : get_spte a2 s with
  | some e2 =>
      rw [hg] at h
      cases h
      by_cases hpg : a / PGSIZE = a2 / PGSIZE
      · refine ⟨{e with pinned := true, resident := true}, ?_, rfl⟩
        unfold get_spte spt_load
        rw [lookup_sptUpdate, if_pos hpg]
        unfold get_spte at hl
        rw [hl]
        rfl
      · refine ⟨e, ?_, hpin⟩
        unfold get_spte spt_load
        rw [lookup_sptUpdate, if_neg hpg]
        exact hl
  | none =>
      rw [hg] at h
      by_cases hsg : is_stack_growth a2 esp
      · rw [if_pos hsg] at h
        unfold spt_stack_growth at h
        by_cases hgo : s.ext.growOk a2
        · rw [if_pos hgo] at h
          cases h
          by_cases hpg : a / PGSIZE = a2 / PGSIZE
          · exfalso
            unfold get_spte at hl hg
            rw [hpg, hg] at hl
            cases hl
          · refine ⟨e, ?_, hpin⟩
            unfold get_spte at hl ⊢
            have hb : (a / PGSIZE == a2 / PGSIZE) = false := by
              simp [hpg]
            simp only [List.lookup, hb]
            exact hl
        · rw [if_neg hgo] at h
          cases h
      · rw [if_neg hsg] at h
        cases h

theorem cap_none_ok_isg {a esp : Nat} {u w : St} {v : Option SptEntry}
    (hn : get_spte a u = none) (h : check_and_pin_addr a esp u = Res.ok v w) :
    is_stack_growth a esp = true := by
  unfold check_and_pin_addr at h
  rw [hn] at h
  by_cases hsg : is_stack_growth a esp = true
  · exact hsg
  · rw [if_neg hsg] at h
    unfold exitRes at h
    cases h

theorem isg_slot_agrees (a esp : Nat) (h : esp ≤ a + STACK_SLACK) :
    is_stack_growth a 4 = is_stack_growth a esp := by
  unfold is_stack_growth
  have h4 : 4 ≤ a + STACK_SLACK := by
    unfold STACK_SLACK
    omega
  rw [decide_eq_true h, decide_eq_true h4]

theorem gsaGo_ok_eq : ∀ (n ptr : Nat) (s : St) (args : List Nat) (t : St),
    gsaGo ptr n s = Res.ok args t → EqExceptSpt s t := by
  intro n
  induction n with
  | zero =>
      intro ptr s args t h
      unfold gsaGo at h
      cases h
      exact eqspt_refl s
  | succ m ih =>
      intro ptr s args t h
      unfold gsaGo at h
      rcases cap_cases ptr 4 s with ⟨v, u, he, hq⟩ | ⟨u, he, _⟩
      · rw [he] at h
        simp only [bindRes] at h
        cases hg : gsaGo (ptr + 4) m u with
        | ok rest w =>
            rw [hg] at h
            simp only [bindRes] at h
            cases h
            exact eqspt_trans hq (ih _ _ _ _ hg)
        | exited st w =>
            rw [hg] at h
            simp only [bindRes] at h
            cases h
        | fault w =>
            rw [hg] at h
            simp only [bindRes] at h
            cases h
        | timeout w =>
            rw [hg] at h
            simp only [bindRes] at h
            cases h
        | halted w =>
            rw [hg] at h
            simp only [bindRes] at h
            cases h
      · rw [he] at h
        simp only [bindRes] at h
        cases h

theorem gsaGo_preserves_pinned : ∀ (n ptr : Nat) (s : St) (args : List Nat) (t : St),
    gsaGo ptr n s = Res.ok args t → ∀ a, pinnedAt s a → pinnedAt t a := by
  intro n
  induction n with
  | zero =>
      intro ptr s args t h a hp
      unfold gsaGo at h
      cases h
      exact hp
  | succ m ih =>
      intro ptr s args t h a hp
      unfold gsaGo at h
      rcases cap_cases ptr 4 s with ⟨v, u, he, _⟩ | ⟨u, he, _⟩
      · rw [he] at h
        simp only [bindRes] at h
        cases hg : gsaGo (ptr + 4) m u with
        | ok rest w =>
            rw [hg] at h
            simp only [bindRes] at h
            cases h
            exact ih _ _ _ _ hg a (cap_preserves_pinned he hp)
        | exited st w =>
            rw [hg] at h
            simp only [bindRes] at h
            cases h
        | fault w =>
            rw [hg] at h
            simp only [bindRes] at h
            cases h
        | timeout w =>
            rw [hg] at h
            simp only [bindRes] at h
            cases h
        | halted w =>
            rw [hg] at h
            simp only [bindRes] at h
            cases h
      · rw [he] at h
        simp only [bindRes] at h
        cases h

theorem gsaGo_spec : ∀ (n ptr : Nat) (s : St) (args : List Nat) (t : St),
    gsaGo ptr n s = Res.ok args t →
    args.length = n ∧
    ∀ i, i < n → pinnedAt t (ptr + 4 * i)
      ∧ args.get? i = some (memWord s (ptr + 4 * i)) := by
  intro n
  induction n with
  | zero =>
      intro ptr s args t h
      unfold gsaGo at h
      cases h
      exact ⟨rfl, fun i hi => absurd hi (Nat.not_lt_zero i)⟩
  | succ m ih =>
      intro ptr s args t h
      unfold gsaGo at h
      rcases cap_cases ptr 4 s with ⟨v, u, he, hq⟩ | ⟨u, he, _⟩
      · rw [he] at h
        simp only [bindRes] at h
        cases hg : gsaGo (ptr + 4) m u with
        | ok rest w =>
            rw [hg] at h
            simp only [bindRes] at h
            cases h
            obtain ⟨hlen, hslots⟩ := ih _ _ _ _ hg
            refine ⟨by simp [hlen], ?_⟩
            intro i hi
            cases i with
            | zero =>
                constructor
                · have hp := gsaGo_preserves_pinned _ _ _ _ _ hg ptr (cap_pins he)
                  simpa using hp
                · have hm := memWord_congr hq ptr
                  simp [hm]
            | succ j =>
                have hj : j < m := by omega
                obtain ⟨hpinj, hgetj⟩ := hslots j hj
                have harith : ptr + 4 * (j + 1) = ptr + 4 + 4 * j := by ring
                rw [harith]
                constructor
                · exact hpinj
                · have hm := memWord_congr hq (ptr + 4 + 4 * j)
                  simpa [hm] using hgetj
        | exited st w =>
            rw [hg] at h
            simp only [bindRes] at h
            cases h
        | fault w =>
            rw [hg] at h
            simp only [bindRes] at h
            cases h
        | timeout w =>
            rw [hg] at h
            simp only [bindRes] at h
            cases h
        | halted w =>
            rw [hg] at h
            simp only [bindRes] at h
            cases h
      · rw [he] at h
        simp only [bindRes] at h
        cases h

theorem cpbGo_invalid_exits : ∀ (n addr esp : Nat) (w : Bool) (s : St),
    (∃ i, i < n ∧ is_valid_user_addr (addr + i) = false) →
    ∃ t, cpbGo addr n esp w s = Res.exited (-1) (sys_exit_state (-1) t)
      ∧ EqExceptSpt s t := by
  intro n
  induction n with
  | zero =>
      intro addr esp w s hbad
      obtain ⟨i, hi, _⟩ := hbad
      exact absurd hi (Nat.not_lt_zero i)
  | succ m ih =>
      intro addr esp w s hbad
      obtain ⟨i, hi, hinv⟩ := hbad
      unfold cpbGo
      by_cases hv : is_valid_user_addr addr = true
      · rw [hv]
        rw [if_pos rfl]
        have hnext : ∃ j, j < m ∧ is_valid_user_addr (addr + 1 + j) = false := by
          cases i with
          | zero =>
              exfalso
              rw [Nat.add_zero] at hinv
              rw [hv] at hinv
              cases hinv
          | succ j =>
              refine ⟨j, by omega, ?_⟩
              have harith : addr + 1 + j = addr + (j + 1) := by ring
              rw [harith]
              exact hinv
        rcases cap_cases addr esp s with ⟨v, u, he, hq⟩ | ⟨u, he, hq⟩
        · rw [he]
          simp only [bindRes]
          cases v with
          | none =>
              obtain ⟨t, hgo, hq2⟩ := ih (addr + 1) esp w u hnext
              exact ⟨t, hgo, eqspt_trans hq hq2⟩
          | some e =>
              dsimp only
              by_cases hw2 : (w && !e.writeable) = true
              · rw [if_pos hw2]
                exact ⟨u, rfl, hq⟩
              · rw [if_neg hw2]
                obtain ⟨t, hgo, hq2⟩ := ih (addr + 1) esp w u hnext
                exact ⟨t, hgo, eqspt_trans hq hq2⟩
        · rw [he]
          simp only [bindRes]
          exact ⟨u, rfl, hq⟩
      · rw [Bool.not_eq_true] at hv
        rw [hv]
        rw [if_neg (by simp)]
        exact ⟨s, rfl, eqspt_refl s⟩

theorem cpb_invalid_exits (len buf esp : Nat) (w : Bool) (s : St)
    (hbad : ∃ i, i < len ∧ is_valid_user_addr (buf + i) = false) :
    ∃ t, check_and_pin_buffer buf len esp w s = Res.exited (-1) (sys_exit_state (-1) t)
      ∧ EqExceptSpt s t := by
  unfold check_and_pin_buffer
  exact cpbGo_invalid_exits len buf esp w s hbad

theorem closeAllFds_fields : ∀ (l : List FileDesc) (s : St),
    (closeAllFds l s).fds = s.fds ∧ (closeAllFds l s).exitStatus = s.exitStatus
      ∧ (closeAllFds l s).mmaps = s.mmaps ∧ (closeAllFds l s).spt = s.spt := by
  intro l
  induction l with
  | nil => intro s; exact ⟨rfl, rfl, rfl, rfl⟩
  | cons d rest ih =>
      intro s
      simp only [closeAllFds]
      exact ih _

theorem closeAllFds_trace_suffix : ∀ (l : List FileDesc) (s : St),
    ∃ pre, (closeAllFds l s).fsTrace = pre ++ s.fsTrace := by
  intro l
  induction l with
  | nil => intro s; exact ⟨[], rfl⟩
  | cons d rest ih =>
      intro s
      obtain ⟨pre, hp⟩ := ih {s with fsTrace := FsOp.closeF d.file :: s.fsTrace}
      refine ⟨pre ++ [FsOp.closeF d.file], ?_⟩
      simp only [closeAllFds]
      rw [hp]
      simp

theorem closeAllFds_mem_trace : ∀ (l : List FileDesc) (s : St) (d : FileDesc),
    d ∈ l → FsOp.closeF d.file ∈ (closeAllFds l s).fsTrace := by
  intro l
  induction l with
  | nil =>
      intro s d hd
      cases hd
  | cons d2 rest ih =>
      intro s d hd
      simp only [closeAllFds]
      rcases List.mem_cons.mp hd with hdd | hdd
      · subst hdd
        obtain ⟨pre, hp⟩ := closeAllFds_trace_suffix rest
          {s with fsTrace := FsOp.closeF d.file :: s.fsTrace}
        rw [hp]
        exact List.mem_append_right pre (List.mem_cons_self _ _)
      · exact ih _ d hdd

/-- C5: misusing a reserved console descriptor — calling write with fd 0,
read with fd 1, or close with fd 0 or fd 1 — terminates the calling
process, and the recorded exit status is -1. -/
theorem reserved_fd_misuse_terminates (s : St) (buf sz : Nat) :
    sys_write 0 buf sz s = Res.exited (-1) (sys_exit_state (-1) {s with lockHeld := false})
    ∧ sys_read 1 buf sz s = Res.exited (-1) (sys_exit_state (-1) {s with lockHeld := false})
    ∧ sys_close 0 s = Res.exited (-1) (sys_exit_state (-1) s)
    ∧ sys_close 1 s = Res.exited (-1) (sys_exit_state (-1) s)
    ∧ (sys_exit_state (-1) s).exitStatus = some (-1)
    ∧ (sys_exit_state (-1) {s with lockHeld := false}).exitStatus = some (-1) :=
  ⟨rfl, rfl, rfl, rfl, rfl, rfl⟩

/-- C3 (code bug in the source): sys_read with fd 0 returns 0 to the
dispatcher with the filesystem lock still held — the handler acquires
the lock and the fd 0 path returns without releasing it. -/
theorem read_fd0_returns_with_lock_held (s : St) (buf sz : Nat) :
    sys_read 0 buf sz s = Res.ok 0 {s with lockHeld := true, input := s.input.tail}
    ∧ ({s with lockHeld := true, input := s.input.tail} : St).lockHeld = true :=
  ⟨rfl, rfl⟩

/-- C10: read with fd 0 consumes exactly one character from the keyboard
stream, stores nothing into the caller's buffer (user memory and the
filesystem trace are untouched), and returns 0. -/
theorem read_console_one_char_returns_zero (s : St) (buf sz c : Nat) (rest : List Nat)
    (h : s.input = c :: rest) :
    sys_read 0 buf sz s = Res.ok 0 {s with lockHeld := true, input := rest}
    ∧ ({s with lockHeld := true, input := rest} : St).mem = s.mem
    ∧ ({s with lockHeld := true, input := rest} : St).fsTrace = s.fsTrace := by
  refine ⟨?_, rfl, rfl⟩
  unfold sys_read
  rw [if_pos rfl]
  rw [show ({s with lockHeld := true} : St).input = c :: rest from h]
  rfl

/-- Witness for the console-read claim at a concrete one-character
keyboard stream. -/
theorem read_console_one_char_returns_zero_witness :
    stC10.input = 65 :: []
    ∧ (sys_read 0 0 8 stC10 = Res.ok 0 {stC10 with lockHeld := true, input := []}
        ∧ ({stC10 with lockHeld := true, input := []} : St).mem = stC10.mem
        ∧ ({stC10 with lockHeld := true, input := []} : St).fsTrace = stC10.fsTrace) :=
  ⟨rfl, read_console_one_char_returns_zero stC10 0 8 65 [] rfl⟩

/-- C8: process termination via the exit path closes every open file
descriptor (a file_close is traced for each), records the exit status,
and releases every memory mapping (and the whole SPT) of the process. -/
theorem exit_path_releases_all (status : Int) (s : St) :
    (sys_exit_state status s).fds = []
    ∧ (sys_exit_state status s).exitStatus = some status
    ∧ (sys_exit_state status s).mmaps = []
    ∧ (sys_exit_state status s).spt = []
    ∧ ∀ d ∈ s.fds, FsOp.closeF d.file ∈ (sys_exit_state status s).fsTrace := by
  unfold sys_exit_state thread_exit_cleanup
  refine ⟨(closeAllFds_fields s.fds {s with fds := []}).1, rfl, rfl, rfl, ?_⟩
  intro d hd
  exact closeAllFds_mem_trace s.fds {s with fds := []} d hd

/-- C6 (amended): for an fd of at least 2 that is not open in the calling
process, read, write, tell and filesize return the failure sentinel and
seek does nothing, all without terminating and with the descriptor table
(and the whole state except the lock flag) unchanged; close terminates
the process with exit status -1, whereupon the exit path empties the
descriptor table. -/
theorem unknown_fd_local_failure (s : St) (fd : Int) (buf sz pos : Nat)
    (hfd : get_fdstruct fd s.fds = none) (h2 : 2 ≤ fd) :
    sys_read fd buf sz s = Res.ok (-1) {s with lockHeld := false}
    ∧ sys_write fd buf sz s = Res.ok (-1) {s with lockHeld := false}
    ∧ sys_seek fd pos s = Res.ok () s
    ∧ sys_tell fd s = Res.ok UINT32_NEG1 s
    ∧ sys_filesize fd s = Res.ok (-1) s
    ∧ sys_close fd s = Res.exited (-1) (sys_exit_state (-1) s)
    ∧ (sys_exit_state (-1) s).exitStatus = some (-1) := by
  have hfd0 : ¬ fd = 0 := by omega
  have hfd1 : ¬ fd = 1 := by omega
  have hlt : ¬ fd < 2 := by omega
  refine ⟨?_, ?_, ?_, ?_, ?_, ?_, rfl⟩
  · unfold sys_read
    rw [if_neg hfd0, if_neg hfd1]
    rw [show get_fdstruct fd ({s with lockHeld := true} : St).fds = none from hfd]
  · unfold sys_write
    rw [if_neg hfd0, if_neg hfd1]
    rw [show get_fdstruct fd ({s with lockHeld := true} : St).fds = none from hfd]
  · unfold sys_seek
    rw [hfd]
  · unfold sys_tell
    rw [hfd]
  · unfold sys_filesize
    rw [hfd]
  · unfold sys_close
    rw [if_neg hlt, hfd]
    rfl

/-- Witness for the unknown-fd claim: fd 5 is not open in a process
whose only descriptor is fd 2. -/
theorem unknown_fd_local_failure_witness :
    get_fdstruct 5 stC6.fds = none ∧ (2 : Int) ≤ 5
    ∧ (sys_read 5 0 4 stC6 = Res.ok (-1) {stC6 with lockHeld := false}
        ∧ sys_write 5 0 4 stC6 = Res.ok (-1) {stC6 with lockHeld := false}
        ∧ sys_seek 5 9 stC6 = Res.ok () stC6
        ∧ sys_tell 5 stC6 = Res.ok UINT32_NEG1 stC6
        ∧ sys_filesize 5 stC6 = Res.ok (-1) stC6
        ∧ sys_close 5 stC6 = Res.exited (-1) (sys_exit_state (-1) stC6)
        ∧ (sys_exit_state (-1) stC6).exitStatus = some (-1)) :=
  ⟨rfl, by norm_num, unknown_fd_local_failure stC6 5 0 4 9 rfl (by norm_num)⟩

/-- Counterexample to C6 as stated: close on an fd that is not open
terminates the process, and on that path the exit cleanup empties the
descriptor table — the table of the terminating process is not left
unchanged. -/
theorem close_unknown_fd_empties_table :
    sys_close 5 stC6 = Res.exited (-1) (sys_exit_state (-1) stC6)
    ∧ (sys_exit_state (-1) stC6).fds = []
    ∧ stC6.fds ≠ [] := by
  refine ⟨rfl, rfl, ?_⟩
  decide

/-- C4 (code bug): sys_mmap reads fd_s->file_pointer for file_length
before testing fd_s for NULL, so mmap with an fd that is not open in the
calling process dereferences a null pointer and faults in the kernel
instead of returning -1. -/
theorem mmap_unknown_fd_faults :
    sys_mmap 5 4096 8 baseSt = Res.fault baseSt :=
  rfl

/-- C7 (code bug): when creating the SPT entry for the second page of a
two-page mapping fails, sys_mmap returns -1 but the entry already
created for the first page (page 1, address 4096) is left installed in
the SPT — nothing is rolled back. -/
theorem mmap_failure_leaves_partial_entries :
    (sys_mmap 2 4096 8 stC7).val? = some (-1)
    ∧ sptHasMmap ((sys_mmap 2 4096 8 stC7).state) 1 = true :=
  ⟨rfl, rfl⟩

/-- C2 (code bug): a SYS_REMOVE dispatch that returns normally leaves
the page holding the path string (page 16) pinned: the SYS_REMOVE branch
of the switch pins the string and never unpins it. -/
theorem remove_dispatch_leaves_string_pinned :
    (syscall_handler 100 frC stC2).isOk = true
    ∧ sptPinnedB ((syscall_handler 100 frC stC2).state) 16 = true :=
  ⟨rfl, rfl⟩

/-- Counterexample to C1 as stated: two dispatches carrying a null
pointer argument that return normally instead of terminating the
process — SYS_MMAP with address argument 0 and an open fd returns the
sentinel -1 in eax, and SYS_WRITE with a null buffer pointer and length
0 returns normally with eax 0, its buffer pointer never examined. -/
theorem null_pointer_arg_not_always_fatal :
    (syscall_handler 100 frC stC1x).isOk = true
    ∧ ((syscall_handler 100 frC stC1x).val?).map Frame.eax = some UINT32_NEG1
    ∧ (syscall_handler 100 frC stC1y).isOk = true
    ∧ ((syscall_handler 100 frC stC1y).val?).map Frame.eax = some 0 :=
  ⟨rfl, rfl, rfl, rfl⟩

/-- C9: for each expected argument slot, get_syscall_arg validates and
pins the slot's containing stack address before reading the argument
word from it: on a normal return every slot page carries a pinned SPT
entry and every returned value is the memory word at its slot; and a
slot address whose page has no SPT entry is accepted only when it
satisfies the stack-growth rule — which at slot addresses (they sit
above the stack pointer) coincides with the rule judged against the
current user stack pointer f_esp, even though the source passes
sizeof(uint32_t) in the esp position of check_and_pin_addr. -/
theorem arg_slots_validated_and_pinned (f_esp argc : Nat) (s t : St) (args : List Nat)
    (h : get_syscall_arg f_esp argc s = Res.ok args t) :
    args.length = argc
    ∧ (∀ i, i < argc → pinnedAt t (f_esp + 4 * (i + 1))
        ∧ args.get? i = some (memWord s (f_esp + 4 * (i + 1))))
    ∧ (∀ i, i < argc → ∀ (u w : St) (v : Option SptEntry),
        get_spte (f_esp + 4 * (i + 1)) u = none →
        check_and_pin_addr (f_esp + 4 * (i + 1)) 4 u = Res.ok v w →
        is_stack_growth (f_esp + 4 * (i + 1)) f_esp = true) := by
  obtain ⟨hlen, hslots⟩ := gsaGo_spec argc (f_esp + 4) s args t h
  refine ⟨hlen, ?_, ?_⟩
  · intro i hi
    have harith : f_esp + 4 * (i + 1) = f_esp + 4 + 4 * i := by ring
    rw [harith]
    exact hslots i hi
  · intro i hi u w v hn hcap
    have hmono : f_esp ≤ (f_esp + 4 * (i + 1)) + STACK_SLACK := by
      unfold STACK_SLACK
      omega
    rw [← isg_slot_agrees (f_esp + 4 * (i + 1)) f_esp hmono]
    exact cap_none_ok_isg hn hcap

/-- Witness for the argument-slot claim: a one-argument fetch at the
concrete stack pointer returns the word 42 from the slot and leaves the
slot page pinned. -/
theorem arg_slots_validated_and_pinned_witness :
    ∃ t args, get_syscall_arg ESPC 1 stC9 = Res.ok args t
      ∧ (args.length = 1
         ∧ (∀ i, i < 1 → pinnedAt t (ESPC + 4 * (i + 1))
             ∧ args.get? i = some (memWord stC9 (ESPC + 4 * (i + 1))))
         ∧ (∀ i, i < 1 → ∀ (u w : St) (v : Option SptEntry),
             get_spte (ESPC + 4 * (i + 1)) u = none →
             check_and_pin_addr (ESPC + 4 * (i + 1)) 4 u = Res.ok v w →
             is_stack_growth (ESPC + 4 * (i + 1)) ESPC = true)) :=
  ⟨_, _, rfl, arg_slots_validated_and_pinned ESPC 1 stC9 _ _ rfl⟩

theorem invalid_user_cases {a : Nat} (h : is_valid_user_addr a = false) :
    a = 0 ∨ PHYS_BASE ≤ a := by
  by_cases h0 : a = 0
  · exact Or.inl h0
  · right
    by_contra hlt
    push_neg at hlt
    have hv : is_valid_user_addr a = true := by
      unfold is_valid_user_addr
      rw [decide_eq_true h0, decide_eq_true hlt]
      rfl
    rw [hv] at h
    cases h

theorem invalid_no_growth (a e : Nat) (h : is_valid_user_addr a = false) :
    is_stack_growth a e = false := by
  rcases invalid_user_cases h with rfl | hge
  · unfold is_stack_growth
    have h2 : ¬ (PHYS_BASE - MAX_STACK_SIZE ≤ 0) := by
      norm_num [PHYS_BASE, MAX_STACK_SIZE]
    rw [decide_eq_false h2]
    simp
  · unfold is_stack_growth
    have h3 : ¬ (a < PHYS_BASE) := not_lt.mpr hge
    rw [decide_eq_false h3]
    simp

theorem invalid_growth_page_ne {a a2 e2 : Nat} (hinv : is_valid_user_addr a = false)
    (hsg : is_stack_growth a2 e2 = true) : a / PGSIZE ≠ a2 / PGSIZE := by
  have hfacts : PHYS_BASE - MAX_STACK_SIZE ≤ a2 ∧ a2 < PHYS_BASE := by
    unfold is_stack_growth at hsg
    simp only [Bool.and_eq_true, decide_eq_true_eq] at hsg
    exact ⟨hsg.1.2, hsg.2⟩
  obtain ⟨hlo, hhi⟩ := hfacts
  unfold PHYS_BASE MAX_STACK_SIZE at hlo
  unfold PHYS_BASE at hhi
  rcases invalid_user_cases hinv with rfl | hge
  · unfold PGSIZE
    omega
  · unfold PHYS_BASE at hge
    unfold PGSIZE
    omega

theorem cap_preserves_invalid_absent {a2 e2 : Nat} {s t : St} {v : Option SptEntry}
    (h : check_and_pin_addr a2 e2 s = Res.ok v t) {a : Nat}
    (hinv : is_valid_user_addr a = false) (habs : get_spte a s = none) :
    get_spte a t = none := by
  unfold check_and_pin_addr at h
  cases hg : get_spte a2 s with
  | some eb =>
      rw [hg] at h
      cases h
      unfold get_spte spt_load
      rw [lookup_sptUpdate]
      unfold get_spte at habs
      by_cases hpg : a / PGSIZE = a2 / PGSIZE
      · rw [if_pos hpg, habs]
        rfl
      · rw [if_neg hpg]
        exact habs
  | none =>
      rw [hg] at h
      by_cases hsg : is_stack_growth a2 e2
      · rw [if_pos hsg] at h
        unfold spt_stack_growth at h
        by_cases hgo : s.ext.growOk a2
        · rw [if_pos hgo] at h
          cases h
          unfold get_spte
          have hne := invalid_growth_page_ne hinv hsg
          have hb : (a / PGSIZE == a2 / PGSIZE) = false := by
            simp [hne]
          simp only [List.lookup, hb]
          exact habs
        · rw [if_neg hgo] at h
          cases h
      · rw [if_neg hsg] at h
        cases h

theorem gsaGo_preserves_invalid_absent : ∀ (n ptr : Nat) (s : St) (args : List Nat) (t : St),
    gsaGo ptr n s = Res.ok args t → ∀ a, is_valid_user_addr a = false →
    get_spte a s = none → get_spte a t = none := by
  intro n
  induction n with
  | zero =>
      intro ptr s args t h a hinv habs
      unfold gsaGo at h
      cases h
      exact habs
  | succ m ih =>
      intro ptr s args t h a hinv habs
      unfold gsaGo at h
      rcases cap_cases ptr 4 s with ⟨v, u, he, _⟩ | ⟨u, he, _⟩
      · rw [he] at h
        simp only [bindRes] at h
        cases hg : gsaGo (ptr + 4) m u with
        | ok rest w =>
            rw [hg] at h
            simp only [bindRes] at h
            cases h
            exact ih _ _ _ _ hg a hinv (cap_preserves_invalid_absent he hinv habs)
        | exited st w =>
            rw [hg] at h
            simp only [bindRes] at h
            cases h
        | fault w =>
            rw [hg] at h
            simp only [bindRes] at h
            cases h
        | timeout w =>
            rw [hg] at h
            simp only [bindRes] at h
            cases h
        | halted w =>
            rw [hg] at h
            simp only [bindRes] at h
            cases h
      · rw [he] at h
        simp only [bindRes] at h
        cases h

theorem gsaGo_invalid_exits : ∀ (n ptr : Nat) (s : St),
    (∃ i, i < n ∧ is_valid_user_addr (ptr + 4 * i) = false
      ∧ get_spte (ptr + 4 * i) s = none) →
    ∃ t, gsaGo ptr n s = Res.exited (-1) (sys_exit_state (-1) t) ∧ EqExceptSpt s t := by
  intro n
  induction n with
  | zero =>
      intro ptr s hbad
      obtain ⟨i, hi, _, _⟩ := hbad
      exact absurd hi (Nat.not_lt_zero i)
  | succ m ih =>
      intro ptr s hbad
      obtain ⟨i, hi, hinv, habs⟩ := hbad
      unfold gsaGo
      cases i with
      | zero =>
          rw [Nat.mul_zero, Nat.add_zero] at hinv habs
          have hcap : check_and_pin_addr ptr 4 s = Res.exited (-1) (sys_exit_state (-1) s) := by
            unfold check_and_pin_addr
            rw [habs, invalid_no_growth ptr 4 hinv]
            rfl
          rw [hcap]
          exact ⟨s, rfl, eqspt_refl s⟩
      | succ j =>
          rcases cap_cases ptr 4 s with ⟨v, u, he, hq⟩ | ⟨u, he, hq⟩
          · rw [he]
            simp only [bindRes]
            have hinv2 : is_valid_user_addr ((ptr + 4) + 4 * j) = false := by
              rw [show ptr + 4 + 4 * j = ptr + 4 * (j + 1) from by ring]
              exact hinv
            have habs2 : get_spte ((ptr + 4) + 4 * j) u = none := by
              rw [show ptr + 4 + 4 * j = ptr + 4 * (j + 1) from by ring]
              exact cap_preserves_invalid_absent he hinv habs
            obtain ⟨t, hg2, hq2⟩ := ih (ptr + 4) u ⟨j, by omega, hinv2, habs2⟩
            refine ⟨t, ?_, eqspt_trans hq hq2⟩
            rw [hg2]
          · rw [he]
            exact ⟨u, rfl, hq⟩

theorem cpsGo_invalid_exits : ∀ (k fuel ptr esp : Nat) (s : St),
    k + 1 ≤ fuel →
    (∀ j, j < k + 1 → memByte s (ptr + j) ≠ 0) →
    is_valid_user_addr (ptr + (k + 1)) = false →
    get_spte (ptr + (k + 1)) s = none →
    ∃ t, cpsGo ptr esp fuel s = Res.exited (-1) (sys_exit_state (-1) t)
      ∧ EqExceptSpt s t := by
  intro k
  induction k with
  | zero =>
      intro fuel ptr esp s hf hbytes hinv habs
      unfold cpsGo
      have hb : ¬ memByte s ptr = 0 := by
        have := hbytes 0 (by omega)
        simpa using this
      rw [if_neg hb]
      cases fuel with
      | zero => exact absurd hf (by omega)
      | succ fu =>
          dsimp only
          have hinv2 : is_valid_user_addr (ptr + 1) = false := hinv
          have habs2 : get_spte (ptr + 1) s = none := habs
          have hcap : check_and_pin_addr (ptr + 1) esp s
              = Res.exited (-1) (sys_exit_state (-1) s) := by
            unfold check_and_pin_addr
            rw [habs2, invalid_no_growth (ptr + 1) esp hinv2]
            rfl
          rw [hcap]
          exact ⟨s, rfl, eqspt_refl s⟩
  | succ k ih =>
      intro fuel ptr esp s hf hbytes hinv habs
      unfold cpsGo
      have hb : ¬ memByte s ptr = 0 := by
        have := hbytes 0 (by omega)
        simpa using this
      rw [if_neg hb]
      cases fuel with
      | zero => exact absurd hf (by omega)
      | succ fu =>
          dsimp only
          rcases cap_cases (ptr + 1) esp s with ⟨v, u, he, hq⟩ | ⟨u, he, hq⟩
          · rw [he]
            simp only [bindRes]
            have hbytes2 : ∀ j, j < k + 1 → memByte u ((ptr + 1) + j) ≠ 0 := by
              intro j hj
              rw [memByte_congr hq]
              have h2 := hbytes (j + 1) (by omega)
              rw [show ptr + (j + 1) = ptr + 1 + j from by ring] at h2
              exact h2
            have hinv2 : is_valid_user_addr ((ptr + 1) + (k + 1)) = false := by
              rw [show ptr + 1 + (k + 1) = ptr + (k + 1 + 1) from by ring]
              exact hinv
            have habs2 : get_spte ((ptr + 1) + (k + 1)) u = none := by
              rw [show ptr + 1 + (k + 1) = ptr + (k + 1 + 1) from by ring]
              exact cap_preserves_invalid_absent he hinv habs
            obtain ⟨t, hgo, hq2⟩ := ih fu (ptr + 1) esp u (by omega) hbytes2 hinv2 habs2
            refine ⟨t, ?_, eqspt_trans hq hq2⟩
            rw [hgo]
          · rw [he]
            exact ⟨u, rfl, hq⟩

theorem cps_invalid_exits (i fuel str esp : Nat) (s : St)
    (hf : i ≤ fuel)
    (hbytes : ∀ j, j < i → memByte s (str + j) ≠ 0)
    (hinv : is_valid_user_addr (str + i) = false)
    (habs : get_spte (str + i) s = none) :
    ∃ t, check_and_pin_string str esp fuel s = Res.exited (-1) (sys_exit_state (-1) t)
      ∧ EqExceptSpt s t := by
  unfold check_and_pin_string
  cases i with
  | zero =>
      have habs2 : get_spte str s = none := by simpa using habs
      have hinv2 : is_valid_user_addr str = false := by simpa using hinv
      have hcap : check_and_pin_addr str esp s = Res.exited (-1) (sys_exit_state (-1) s) := by
        unfold check_and_pin_addr
        rw [habs2, invalid_no_growth str esp hinv2]
        rfl
      rw [hcap]
      exact ⟨s, rfl, eqspt_refl s⟩
  | succ k =>
      rcases cap_cases str esp s with ⟨v, u, he, hq⟩ | ⟨u, he, hq⟩
      · rw [he]
        simp only [bindRes]
        have hbytes2 : ∀ j, j < k + 1 → memByte u (str + j) ≠ 0 := by
          intro j hj
          rw [memByte_congr hq]
          exact hbytes j hj
        have habs2 : get_spte (str + (k + 1)) u = none :=
          cap_preserves_invalid_absent he hinv habs
        obtain ⟨t, hgo, hq2⟩ := cpsGo_invalid_exits k fuel str esp u hf hbytes2 hinv habs2
        refine ⟨t, ?_, eqspt_trans hq hq2⟩
        rw [hgo]
      · rw [he]
        exact ⟨u, rfl, hq⟩

theorem handler_exits_of_gsa_exits (fuel : Nat) (f : Frame) (s s2 t : St)
    (e : Option SptEntry) (tyv : Nat) (st : Int)
    (hmem : tyv ∈ argFetchers)
    (hty : get_syscall_type f.esp s = Res.ok tyv s)
    (hpin : check_and_pin_addr f.esp f.esp s = Res.ok e s2)
    (hgsa : get_syscall_arg f.esp (argcOf tyv) s2 = Res.exited st t) :
    syscall_handler fuel f s = Res.exited st t := by
  unfold syscall_handler
  rw [hty]
  simp only [bindRes]
  rw [hpin]
  simp only [bindRes]
  have hmem2 : tyv = SYS_EXIT ∨ tyv = SYS_EXEC ∨ tyv = SYS_WAIT ∨ tyv = SYS_CREATE
      ∨ tyv = SYS_REMOVE ∨ tyv = SYS_OPEN ∨ tyv = SYS_FILESIZE ∨ tyv = SYS_READ
      ∨ tyv = SYS_WRITE ∨ tyv = SYS_SEEK ∨ tyv = SYS_TELL ∨ tyv = SYS_CLOSE
      ∨ tyv = SYS_MMAP ∨ tyv = SYS_MUNMAP := by
    simpa [argFetchers] using hmem
  rcases hmem2 with rfl | rfl | rfl | rfl | rfl | rfl | rfl | rfl | rfl | rfl | rfl
    | rfl | rfl | rfl
  · have hrc : runCase fuel SYS_EXIT f s2 = caseExit f s2 := by
      simp [runCase, SYS_CREATE, SYS_REMOVE, SYS_OPEN, SYS_CLOSE, SYS_EXIT]
    rw [hrc]
    unfold caseExit
    have hg2 : get_syscall_arg f.esp 1 s2 = Res.exited st t := hgsa
    rw [hg2]
    rfl
  · have hrc : runCase fuel SYS_EXEC f s2 = caseExec fuel f s2 := by
      simp [runCase, SYS_CREATE, SYS_REMOVE, SYS_OPEN, SYS_CLOSE, SYS_EXIT, SYS_WRITE,
        SYS_READ, SYS_FILESIZE, SYS_EXEC]
    rw [hrc]
    unfold caseExec
    have hg2 : get_syscall_arg f.esp 1 s2 = Res.exited st t := hgsa
    rw [hg2]
    rfl
  · have hrc : runCase fuel SYS_WAIT f s2 = caseWait f s2 := by
      simp [runCase, SYS_CREATE, SYS_REMOVE, SYS_OPEN, SYS_CLOSE, SYS_EXIT, SYS_WRITE,
        SYS_READ, SYS_FILESIZE, SYS_EXEC, SYS_WAIT]
    rw [hrc]
    unfold caseWait
    have hg2 : get_syscall_arg f.esp 1 s2 = Res.exited st t := hgsa
    rw [hg2]
    rfl
  · have hrc : runCase fuel SYS_CREATE f s2 = caseCreate fuel f s2 := by
      simp [runCase, SYS_CREATE]
    rw [hrc]
    unfold caseCreate
    have hg2 : get_syscall_arg f.esp 2 s2 = Res.exited st t := hgsa
    rw [hg2]
    rfl
  · have hrc : runCase fuel SYS_REMOVE f s2 = caseRemove fuel f s2 := by
      simp [runCase, SYS_CREATE, SYS_REMOVE]
    rw [hrc]
    unfold caseRemove
    have hg2 : get_syscall_arg f.esp 1 s2 = Res.exited st t := hgsa
    rw [hg2]
    rfl
  · have hrc : runCase fuel SYS_OPEN f s2 = caseOpen fuel f s2 := by
      simp [runCase, SYS_CREATE, SYS_REMOVE, SYS_OPEN]
    rw [hrc]
    unfold caseOpen
    have hg2 : get_syscall_arg f.esp 1 s2 = Res.exited st t := hgsa
    rw [hg2]
    rfl
  · have hrc : runCase fuel SYS_FILESIZE f s2 = caseFilesize f s2 := by
      simp [runCase, SYS_CREATE, SYS_REMOVE, SYS_OPEN, SYS_CLOSE, SYS_EXIT, SYS_WRITE,
        SYS_READ, SYS_FILESIZE]
    rw [hrc]
    unfold caseFilesize
    have hg2 : get_syscall_arg f.esp 1 s2 = Res.exited st t := hgsa
    rw [hg2]
    rfl
  · have hrc : runCase fuel SYS_READ f s2 = caseRead f s2 := by
      simp [runCase, SYS_CREATE, SYS_REMOVE, SYS_OPEN, SYS_CLOSE, SYS_EXIT, SYS_WRITE,
        SYS_READ]
    rw [hrc]
    unfold caseRead
    have hg2 : get_syscall_arg f.esp 3 s2 = Res.exited st t := hgsa
    rw [hg2]
    rfl
  · have hrc : runCase fuel SYS_WRITE f s2 = caseWrite f s2 := by
      simp [runCase, SYS_CREATE, SYS_REMOVE, SYS_OPEN, SYS_CLOSE, SYS_EXIT, SYS_WRITE]
    rw [hrc]
    unfold caseWrite
    have hg2 : get_syscall_arg f.esp 3 s2 = Res.exited st t := hgsa
    rw [hg2]
    rfl
  · have hrc : runCase fuel SYS_SEEK f s2 = caseSeek f s2 := by
      simp [runCase, SYS_CREATE, SYS_REMOVE, SYS_OPEN, SYS_CLOSE, SYS_EXIT, SYS_WRITE,
        SYS_READ, SYS_FILESIZE, SYS_EXEC, SYS_WAIT, SYS_SEEK]
    rw [hrc]
    unfold caseSeek
    have hg2 : get_syscall_arg f.esp 2 s2 = Res.exited st t := hgsa
    rw [hg2]
    rfl
  · have hrc : runCase fuel SYS_TELL f s2 = caseTell f s2 := by
      simp [runCase, SYS_CREATE, SYS_REMOVE, SYS_OPEN, SYS_CLOSE, SYS_EXIT, SYS_WRITE,
        SYS_READ, SYS_FILESIZE, SYS_EXEC, SYS_WAIT, SYS_SEEK, SYS_TELL]
    rw [hrc]
    unfold caseTell
    have hg2 : get_syscall_arg f.esp 1 s2 = Res.exited st t := hgsa
    rw [hg2]
    rfl
  · have hrc : runCase fuel SYS_CLOSE f s2 = caseClose f s2 := by
      simp [runCase, SYS_CREATE, SYS_REMOVE, SYS_OPEN, SYS_CLOSE]
    rw [hrc]
    unfold caseClose
    have hg2 : get_syscall_arg f.esp 1 s2 = Res.exited st t := hgsa
    rw [hg2]
    rfl
  · have hrc : runCase fuel SYS_MMAP f s2 = caseMmap fuel f s2 := by
      simp [runCase, SYS_CREATE, SYS_REMOVE, SYS_OPEN, SYS_CLOSE, SYS_EXIT, SYS_WRITE,
        SYS_READ, SYS_FILESIZE, SYS_EXEC, SYS_WAIT, SYS_SEEK, SYS_TELL, SYS_MMAP]
    rw [hrc]
    unfold caseMmap
    have hg2 : get_syscall_arg f.esp 2 s2 = Res.exited st t := hgsa
    rw [hg2]
    rfl
  · have hrc : runCase fuel SYS_MUNMAP f s2 = caseMunmap f s2 := by
      simp [runCase, SYS_CREATE, SYS_REMOVE, SYS_OPEN, SYS_CLOSE, SYS_EXIT, SYS_WRITE,
        SYS_READ, SYS_FILESIZE, SYS_EXEC, SYS_WAIT, SYS_SEEK, SYS_TELL, SYS_MMAP,
        SYS_MUNMAP]
    rw [hrc]
    unfold caseMunmap
    have hg2 : get_syscall_arg f.esp 1 s2 = Res.exited st t := hgsa
    rw [hg2]
    rfl

/-- C1 (amended): for the argument addresses the dispatcher validates,
a null or non-user address terminates the process with exit status -1
before the handler performs any file I/O or descriptor-table or mapping
change.  Three parts, one per kind of validated address: (a) each
referenced byte of a buffer argument of nonzero length in a read or
write dispatch, rejected by the explicit range check of
check_and_pin_buffer; (b) each argument stack slot of every
argument-fetching dispatch, and (c) each examined byte of a string
argument (those up to the first NUL) in a create, remove, open or exec
dispatch — the slot and string paths reject through the SPT and the
stack-growth rule rather than a range check, so (b) and (c) carry the
hypothesis that the page of the bad address has no SPT entry, which
always holds of null and kernel addresses in a well-formed process.
The counterexample exhibits the two exceptions the source makes: a
zero-length buffer's pointer is never examined, and mmap's addr
argument produces a -1 return without termination. -/
theorem invalid_arg_address_aborts_dispatch :
    (∀ (fuel : Nat) (f : Frame) (s s2 s3 : St) (e : Option SptEntry)
        (tyv fdv buf len : Nat),
      tyv = SYS_WRITE ∨ tyv = SYS_READ →
      get_syscall_type f.esp s = Res.ok tyv s →
      check_and_pin_addr f.esp f.esp s = Res.ok e s2 →
      get_syscall_arg f.esp 3 s2 = Res.ok [fdv, buf, len] s3 →
      (∃ i, i < len ∧ is_valid_user_addr (buf + i) = false) →
      ∃ t, syscall_handler fuel f s = Res.exited (-1) (sys_exit_state (-1) t)
        ∧ t.fsTrace = s.fsTrace ∧ t.fds = s.fds ∧ t.mmaps = s.mmaps)
    ∧ (∀ (fuel : Nat) (f : Frame) (s s2 : St) (e : Option SptEntry) (tyv : Nat),
      tyv ∈ argFetchers →
      get_syscall_type f.esp s = Res.ok tyv s →
      check_and_pin_addr f.esp f.esp s = Res.ok e s2 →
      (∃ i, i < argcOf tyv ∧ is_valid_user_addr (f.esp + 4 * (i + 1)) = false
        ∧ get_spte (f.esp + 4 * (i + 1)) s = none) →
      ∃ t, syscall_handler fuel f s = Res.exited (-1) (sys_exit_state (-1) t)
        ∧ t.fsTrace = s.fsTrace ∧ t.fds = s.fds ∧ t.mmaps = s.mmaps)
    ∧ (∀ (fuel : Nat) (f : Frame) (s s2 s3 : St) (e : Option SptEntry) (tyv : Nat)
        (args : List Nat) (i : Nat),
      tyv = SYS_CREATE ∨ tyv = SYS_REMOVE ∨ tyv = SYS_OPEN ∨ tyv = SYS_EXEC →
      get_syscall_type f.esp s = Res.ok tyv s →
      check_and_pin_addr f.esp f.esp s = Res.ok e s2 →
      get_syscall_arg f.esp (argcOf tyv) s2 = Res.ok args s3 →
      i ≤ fuel →
      (∀ j, j < i → memByte s (args.getD 0 0 + j) ≠ 0) →
      is_valid_user_addr (args.getD 0 0 + i) = false →
      get_spte (args.getD 0 0 + i) s = none →
      ∃ t, syscall_handler fuel f s = Res.exited (-1) (sys_exit_state (-1) t)
        ∧ t.fsTrace = s.fsTrace ∧ t.fds = s.fds ∧ t.mmaps = s.mmaps) := by
  refine ⟨?_, ?_, ?_⟩
  · intro fuel f s s2 s3 e tyv fdv buf len hw hty hpin harg hbad
    have hq1 : EqExceptSpt s s2 := cap_ok_eq hpin
    have hq2 : EqExceptSpt s2 s3 := gsaGo_ok_eq 3 (f.esp + 4) s2 [fdv, buf, len] s3 harg
    rcases hw with hw | hw <;> subst hw
    · obtain ⟨t, hcpb, hq3⟩ := cpb_invalid_exits len buf f.esp false s3 hbad
      have hqall : EqExceptSpt s t := eqspt_trans (eqspt_trans hq1 hq2) hq3
      refine ⟨t, ?_, hqall.trace_eq, hqall.fds_eq, hqall.mmaps_eq⟩
      unfold syscall_handler
      rw [hty]
      simp only [bindRes]
      rw [hpin]
      simp only [bindRes]
      have hrc : runCase fuel SYS_WRITE f s2 = caseWrite f s2 := by
        simp [runCase, SYS_CREATE, SYS_REMOVE, SYS_OPEN, SYS_CLOSE, SYS_EXIT, SYS_WRITE]
      rw [hrc]
      unfold caseWrite
      rw [harg]
      simp only [bindRes, List.getD_cons_zero, List.getD_cons_succ]
      rw [hcpb]
    · obtain ⟨t, hcpb, hq3⟩ := cpb_invalid_exits len buf f.esp true s3 hbad
      have hqall : EqExceptSpt s t := eqspt_trans (eqspt_trans hq1 hq2) hq3
      refine ⟨t, ?_, hqall.trace_eq, hqall.fds_eq, hqall.mmaps_eq⟩
      unfold syscall_handler
      rw [hty]
      simp only [bindRes]
      rw [hpin]
      simp only [bindRes]
      have hrc : runCase fuel SYS_READ f s2 = caseRead f s2 := by
        simp [runCase, SYS_CREATE, SYS_REMOVE, SYS_OPEN, SYS_CLOSE, SYS_EXIT, SYS_WRITE,
          SYS_READ]
      rw [hrc]
      unfold caseRead
      rw [harg]
      simp only [bindRes, List.getD_cons_zero, List.getD_cons_succ]
      rw [hcpb]
  · intro fuel f s s2 e tyv hmem hty hpin hbad
    obtain ⟨i, hi, hinv, habs⟩ := hbad
    have hq1 : EqExceptSpt s s2 := cap_ok_eq hpin
    have habs2 : get_spte (f.esp + 4 * (i + 1)) s2 = none :=
      cap_preserves_invalid_absent hpin hinv habs
    have hbad2 : ∃ j, j < argcOf tyv ∧ is_valid_user_addr (f.esp + 4 + 4 * j) = false
        ∧ get_spte (f.esp + 4 + 4 * j) s2 = none := by
      refine ⟨i, hi, ?_, ?_⟩
      · rw [show f.esp + 4 + 4 * i = f.esp + 4 * (i + 1) from by ring]
        exact hinv
      · rw [show f.esp + 4 + 4 * i = f.esp + 4 * (i + 1) from by ring]
        exact habs2
    obtain ⟨t, hgsa, hq2⟩ := gsaGo_invalid_exits (argcOf tyv) (f.esp + 4) s2 hbad2
    have hqall : EqExceptSpt s t := eqspt_trans hq1 hq2
    exact ⟨t, handler_exits_of_gsa_exits fuel f s s2 (sys_exit_state (-1) t) e tyv (-1)
      hmem hty hpin hgsa, hqall.trace_eq, hqall.fds_eq, hqall.mmaps_eq⟩
  · intro fuel f s s2 s3 e tyv args i hmem4 hty hpin harg hif hbytes hinv habs
    have hq1 : EqExceptSpt s s2 := cap_ok_eq hpin
    have hq2 : EqExceptSpt s2 s3 := gsaGo_ok_eq (argcOf tyv) (f.esp + 4) s2 args s3 harg
    have habs2 : get_spte (args.getD 0 0 + i) s2 = none :=
      cap_preserves_invalid_absent hpin hinv habs
    have habs3 : get_spte (args.getD 0 0 + i) s3 = none :=
      gsaGo_preserves_invalid_absent (argcOf tyv) (f.esp + 4) s2 args s3 harg _ hinv habs2
    have hbytes3 : ∀ j, j < i → memByte s3 (args.getD 0 0 + j) ≠ 0 := by
      intro j hj
      rw [memByte_congr (eqspt_trans hq1 hq2)]
      exact hbytes j hj
    obtain ⟨t, hcps, hq3⟩ :=
      cps_invalid_exits i fuel (args.getD 0 0) f.esp s3 hif hbytes3 hinv habs3
    have hqall : EqExceptSpt s t := eqspt_trans (eqspt_trans hq1 hq2) hq3
    refine ⟨t, ?_, hqall.trace_eq, hqall.fds_eq, hqall.mmaps_eq⟩
    rcases hmem4 with rfl | rfl | rfl | rfl
    · unfold syscall_handler
      rw [hty]
      simp only [bindRes]
      rw [hpin]
      simp only [bindRes]
      have hrc : runCase fuel SYS_CREATE f s2 = caseCreate fuel f s2 := by
        simp [runCase, SYS_CREATE]
      rw [hrc]
      unfold caseCreate
      have harg2 : get_syscall_arg f.esp 2 s2 = Res.ok args s3 := harg
      rw [harg2]
      simp only [bindRes]
      rw [hcps]
    · unfold syscall_handler
      rw [hty]
      simp only [bindRes]
      rw [hpin]
      simp only [bindRes]
      have hrc : runCase fuel SYS_REMOVE f s2 = caseRemove fuel f s2 := by
        simp [runCase, SYS_CREATE, SYS_REMOVE]
      rw [hrc]
      unfold caseRemove
      have harg2 : get_syscall_arg f.esp 1 s2 = Res.ok args s3 := harg
      rw [harg2]
      simp only [bindRes]
      rw [hcps]
    · unfold syscall_handler
      rw [hty]
      simp only [bindRes]
      rw [hpin]
      simp only [bindRes]
      have hrc : runCase fuel SYS_OPEN f s2 = caseOpen fuel f s2 := by
        simp [runCase, SYS_CREATE, SYS_REMOVE, SYS_OPEN]
      rw [hrc]
      unfold caseOpen
      have harg2 : get_syscall_arg f.esp 1 s2 = Res.ok args s3 := harg
      rw [harg2]
      simp only [bindRes]
      rw [hcps]
    · unfold syscall_handler
      rw [hty]
      simp only [bindRes]
      rw [hpin]
      simp only [bindRes]
      have hrc : runCase fuel SYS_EXEC f s2 = caseExec fuel f s2 := by
        simp [runCase, SYS_CREATE, SYS_REMOVE, SYS_OPEN, SYS_CLOSE, SYS_EXIT, SYS_WRITE,
          SYS_READ, SYS_FILESIZE, SYS_EXEC]
      rw [hrc]
      unfold caseExec
      have harg2 : get_syscall_arg f.esp 1 s2 = Res.ok args s3 := harg
      rw [harg2]
      simp only [bindRes]
      rw [hcps]

/-- Witness for the amended invalid-address claim, one concrete dispatch
per part: a SYS_WRITE whose buffer pointer is PHYS_BASE with length 1, a
SYS_TELL whose argument slot sits at PHYS_BASE, and a SYS_REMOVE whose
filename string runs off the end of user space — each terminates the
process with exit status -1 and no filesystem, descriptor-table or
mapping change. -/
theorem invalid_arg_address_aborts_dispatch_witness :
    (is_valid_user_addr (PHYS_BASE + 0) = false
      ∧ is_valid_user_addr (frC1s.esp + 4 * (0 + 1)) = false
      ∧ is_valid_user_addr (3221225471 + 1) = false)
    ∧ (∃ t, syscall_handler 100 frC stC1w = Res.exited (-1) (sys_exit_state (-1) t)
        ∧ t.fsTrace = stC1w.fsTrace ∧ t.fds = stC1w.fds ∧ t.mmaps = stC1w.mmaps)
    ∧ (∃ t, syscall_handler 100 frC1s stC1s = Res.exited (-1) (sys_exit_state (-1) t)
        ∧ t.fsTrace = stC1s.fsTrace ∧ t.fds = stC1s.fds ∧ t.mmaps = stC1s.mmaps)
    ∧ (∃ t, syscall_handler 100 frC stC1t = Res.exited (-1) (sys_exit_state (-1) t)
        ∧ t.fsTrace = stC1t.fsTrace ∧ t.fds = stC1t.fds ∧ t.mmaps = stC1t.mmaps) :=
  ⟨⟨rfl, rfl, rfl⟩,
   (invalid_arg_address_aborts_dispatch).1 100 frC stC1w _ _ _ SYS_WRITE 1 PHYS_BASE 1
     (Or.inl rfl) rfl rfl rfl ⟨0, Nat.one_pos, rfl⟩,
   (invalid_arg_address_aborts_dispatch).2.1 100 frC1s stC1s _ _ SYS_TELL
     (by decide) rfl rfl ⟨0, by decide, rfl, rfl⟩,
   (invalid_arg_address_aborts_dispatch).2.2 100 frC stC1t _ _ _ SYS_REMOVE
     [3221225471] 1 (Or.inr (Or.inl rfl)) rfl rfl rfl (by norm_num)
     (fun j hj => by
       have hj0 : j = 0 := by omega
       subst hj0
       decide)
     rfl rfl⟩
